import Mathlib

/-!
# Verification of the `proto_nd_flow` geometry service

Shallow embedding of `src/proto_nd_flow/resources/geometry.py` (the
`Geometry` resource of `ndlar_flow`): the fiducial-volume test `in_fid`,
the drift-coordinate reconstruction `get_drift_coordinate`, the
rectangular-detector solid angle `solid_angle`, and the charge/light
geometry builders.  Coordinates are modelled over `ℚ` (exact arithmetic in
place of the floats the Python code uses) except for the solid angle,
whose value lives in `ℝ`.  Lookup tables (`proto_nd_flow/util/lut.py`) are
modelled from the spec, since that module's source is not available here.
-/

namespace NdlarFlow

/-- A 3D point / coordinate triple, in the order (x, y, z) used by the code. -/
structure Vec3 where
  x : ℚ
  y : ℚ
  z : ℚ
  deriving Repr, DecidableEq

/-- An axis-aligned box: minimum corner and maximum corner (rows 0 and 1 of
the `(2,3)` numpy arrays stored in `module_RO_bounds`). -/
structure Box where
  lower : Vec3
  upper : Vec3
  deriving Repr, DecidableEq

/-- The geometry state an already-built `Geometry` resource exposes to its
query methods: the scalar attributes plus the seven lookup tables, each LUT
given by its get-function. -/
structure Geometry where
  module_RO_bounds : List Box
  lar_detector_bounds : Box
  max_drift_distance : ℚ
  cathode_thickness : ℚ
  pixel_coordinates_2D : ℤ × ℤ × ℤ × ℤ → ℚ × ℚ
  tile_id : ℤ × ℤ → ℤ
  anode_drift_coordinate : ℤ → ℚ
  drift_dir : ℤ → ℤ
  tpc_id : ℤ × ℤ → ℤ
  det_id : ℤ × ℤ → ℤ
  det_bounds : ℤ × ℤ → Box

/-- Strict containment of a point in an open box: the conjunction
`(xyz < upper) & (xyz > lower)` computed coordinate-wise by `in_fid`. -/
def inOpenBox (lo hi p : Vec3) : Bool :=
  decide (lo.x < p.x ∧ p.x < hi.x ∧ lo.y < p.y ∧ p.y < hi.y ∧
          lo.z < p.z ∧ p.z < hi.z)

/-- The in-place update `in_fid` performs on entry `i` of `module_RO_bounds`
(which `positive_drift_regions` and `negative_drift_regions` both alias):
first `bounds[i][0][0] = bounds[i][1][0] - max_drift_distance`, then
`bounds[i][1][0] = bounds[i][0][0] + max_drift_distance`. -/
def in_fid_mutate (d : ℚ) (b : Box) : Box :=
  let b1 : Box := { b with lower := { b.lower with x := b.upper.x - d } }
  let b2 : Box := { b1 with upper := { b1.upper with x := b1.lower.x + d } }
  b2

/-- `Geometry.in_fid` for a single point, embedded faithfully from the code:
`positive_drift_regions` and `negative_drift_regions` are the *same* array
object as `module_RO_bounds`, so after the mutation loop both "drift
regions" of module `i` are the mutated box, and the module bounds stored in
the state have been overwritten.  The margins are
`fid_cathode = (c, f, f)` and `fid_anode = (a, f, f)`; the positive-drift
check uses `lower + fid_cathode` / `upper - fid_anode` and the
negative-drift check uses `lower + fid_anode` / `upper - fid_cathode`.
Returns the boolean result together with the post-call geometry state. -/
def in_fid (g : Geometry) (c f a : ℚ) (p : Vec3) : Bool × Geometry :=
  let mutated := g.module_RO_bounds.map (in_fid_mutate g.max_drift_distance)
  let res := mutated.any fun b =>
    inOpenBox ⟨b.lower.x + c, b.lower.y + f, b.lower.z + f⟩
              ⟨b.upper.x - a, b.upper.y - f, b.upper.z - f⟩ p
    || inOpenBox ⟨b.lower.x + a, b.lower.y + f, b.lower.z + f⟩
                 ⟨b.upper.x - c, b.upper.y - f, b.upper.z - f⟩ p
  (res, { g with module_RO_bounds := mutated })

/-- Modelled from the spec: the *intended* fiducial test of §4.4 — for each
module the positive-drift sub-box `[upper.x - D, upper.x]` and the
negative-drift sub-box `[lower.x, lower.x + D]` are each derived
independently from that module's (unmutated) bounds, with the cathode
margin at the cathode-facing drift boundary, the anode margin at the
anode-facing boundary and the field-cage margin on the transverse axes. -/
def in_fid_claim (g : Geometry) (c f a : ℚ) (p : Vec3) : Bool :=
  g.module_RO_bounds.any fun b =>
    inOpenBox ⟨b.upper.x - g.max_drift_distance + c, b.lower.y + f, b.lower.z + f⟩
              ⟨b.upper.x - a, b.upper.y - f, b.upper.z - f⟩ p
    || inOpenBox ⟨b.lower.x + a, b.lower.y + f, b.lower.z + f⟩
                 ⟨b.lower.x + g.max_drift_distance - c, b.upper.y - f, b.upper.z - f⟩ p

/-- A concrete single-module geometry used to exercise the query functions:
module bounds `[[0,0,0],[100,50,50]]`, max drift distance 30. -/
def gEx : Geometry where
  module_RO_bounds := [⟨⟨0, 0, 0⟩, ⟨100, 50, 50⟩⟩]
  lar_detector_bounds := ⟨⟨0, 0, 0⟩, ⟨100, 50, 50⟩⟩
  max_drift_distance := 30
  cathode_thickness := 0
  pixel_coordinates_2D := fun _ => (0, 0)
  tile_id := fun _ => 1
  anode_drift_coordinate := fun _ => 100
  drift_dir := fun _ => -1
  tpc_id := fun _ => 1
  det_id := fun _ => 1
  det_bounds := fun _ => ⟨⟨0, 0, 0⟩, ⟨1, 2, 3⟩⟩

/-- Whether `p` lies on the (unshrunk) boundary of box `b`: inside the closed
box with at least one coordinate exactly at a face. -/
def onBoundary (b : Box) (p : Vec3) : Bool :=
  decide ((b.lower.x ≤ p.x ∧ p.x ≤ b.upper.x ∧ b.lower.y ≤ p.y ∧ p.y ≤ b.upper.y ∧
           b.lower.z ≤ p.z ∧ p.z ≤ b.upper.z) ∧
          (p.x = b.lower.x ∨ p.x = b.upper.x ∨ p.y = b.lower.y ∨ p.y = b.upper.y ∨
           p.z = b.lower.z ∨ p.z = b.upper.z))

/-- `Geometry.get_drift_coordinate`: look up the tile id for
`(io_group, io_channel)`, then return
`anode_drift_coordinate[tile] + drift_dir[tile] * drift`. -/
def get_drift_coordinate (g : Geometry) (io_group io_channel : ℤ) (drift : ℚ) : ℚ :=
  let t := g.tile_id (io_group, io_channel)
  g.anode_drift_coordinate t + (g.drift_dir t : ℚ) * drift

/-- `np.arctan2` (four-quadrant arctangent), on exact reals. -/
noncomputable def arctan2 (y x : ℝ) : ℝ :=
  if 0 < x then Real.arctan (y / x)
  else if x < 0 then
    (if 0 ≤ y then Real.arctan (y / x) + Real.pi else Real.arctan (y / x) - Real.pi)
  else (if 0 < y then Real.pi / 2 else if y < 0 then -(Real.pi / 2) else 0)

/-- Numpy boolean coerced into an arithmetic value, as in
`overlapping + ~overlapping * (1 - 2*inverted)`. -/
def boolToRat (b : Bool) : ℚ := if b then 1 else 0

/-- `Geometry._rect_solid_angle_sign`, embedded from the code:
`overlapping = (coord >= rect_min) & (coord <= rect_max)`,
`inverted = |rect_min - coord| < |rect_max - coord|`,
`sign_min = overlapping + ~overlapping * (1 - 2*inverted)`,
`sign_max = overlapping + ~overlapping * (2*inverted - 1)`. -/
def rect_solid_angle_sign (coord rect_min rect_max : ℚ) : ℚ × ℚ :=
  let overlapping : Bool := decide (rect_min ≤ coord ∧ coord ≤ rect_max)
  let inverted : Bool := decide (|rect_min - coord| < |rect_max - coord|)
  (boolToRat overlapping + boolToRat (!overlapping) * (1 - 2 * boolToRat inverted),
   boolToRat overlapping + boolToRat (!overlapping) * (2 * boolToRat inverted - 1))

/-- One term of the solid-angle accumulation loop:
`sign_y * sign_z * arctan2(|det_y - y| * |det_z - z|, |det_x - x| * d)` with
`d = sqrt((x-det_x)² + (y-det_y)² + (z-det_z)²)`. -/
noncomputable def solid_angle_term (p : Vec3) (det_x det_y sign_y det_z sign_z : ℚ) : ℝ :=
  let d : ℝ := Real.sqrt (((p.x : ℝ) - (det_x : ℝ)) ^ 2 + ((p.y : ℝ) - (det_y : ℝ)) ^ 2 +
                          ((p.z : ℝ) - (det_z : ℝ)) ^ 2)
  (sign_y : ℝ) * (sign_z : ℝ) *
    arctan2 (|(det_y : ℝ) - (p.y : ℝ)| * |(det_z : ℝ) - (p.z : ℝ)|)
            (|(det_x : ℝ) - (p.x : ℝ)| * d)

/-- `Geometry.solid_angle` for a single point and one set of detector
bounds: `det_x` is the x-midpoint of the bounds, the per-axis signs come
from `rect_solid_angle_sign`, and the four corner terms (max/min edge in y
crossed with max/min edge in z) are accumulated. -/
noncomputable def solid_angle_rect (bounds : Box) (p : Vec3) : ℝ :=
  let det_min := bounds.lower
  let det_max := bounds.upper
  let det_x : ℚ := (det_min.x + det_max.x) / 2
  let sy := rect_solid_angle_sign p.y det_min.y det_max.y
  let sz := rect_solid_angle_sign p.z det_min.z det_max.z
  solid_angle_term p det_x det_max.y sy.2 det_max.z sz.2 +
  solid_angle_term p det_x det_max.y sy.2 det_min.z sz.1 +
  solid_angle_term p det_x det_min.y sy.1 det_max.z sz.2 +
  solid_angle_term p det_x det_min.y sy.1 det_min.z sz.1

/-- `Geometry.solid_angle`: look up the detector bounds for
`(tpc_id, det_id)` in the `det_bounds` LUT and compute the rectangle's
solid angle as seen from `p`. -/
noncomputable def solid_angle (g : Geometry) (p : Vec3) (tpc det : ℤ) : ℝ :=
  solid_angle_rect (g.det_bounds (tpc, det)) p

/-- The per-axis signs as the claim describes them: both `+1` when the
point's coordinate lies within the `[min, max]` extent; when it lies
outside, the sign for the nearer edge is `-1` and the other is `+1`
("nearer" meaning the min edge exactly when
`|rect_min - coord| < |rect_max - coord|`). -/
def rect_solid_angle_sign_claim (coord rect_min rect_max : ℚ) : ℚ × ℚ :=
  if rect_min ≤ coord ∧ coord ≤ rect_max then (1, 1)
  else if |rect_min - coord| < |rect_max - coord| then (-1, 1)
  else (1, -1)

/-- The solid angle as the claim describes it: the sum over the four corner
combinations of `sign_y * sign_z * arctan2(|det_y - y|·|det_z - z|,
|det_x - x|·dist)`, with `det_x` the x-midpoint of the detector bounds,
`dist` the Euclidean distance from the point to the corner, and the signs
given by `rect_solid_angle_sign_claim`. -/
noncomputable def solid_angle_rect_claim (bounds : Box) (p : Vec3) : ℝ :=
  let det_min := bounds.lower
  let det_max := bounds.upper
  let det_x : ℚ := (det_min.x + det_max.x) / 2
  let sy := rect_solid_angle_sign_claim p.y det_min.y det_max.y
  let sz := rect_solid_angle_sign_claim p.z det_min.z det_max.z
  solid_angle_term p det_x det_max.y sy.2 det_max.z sz.2 +
  solid_angle_term p det_x det_max.y sy.2 det_min.z sz.1 +
  solid_angle_term p det_x det_min.y sy.1 det_max.z sz.2 +
  solid_angle_term p det_x det_min.y sy.1 det_min.z sz.1

/-! ## Charge-geometry builder fragments -/

/-- `np.min` over a list, with junk value `d` on the empty list (numpy
raises there; theorems carry a nonemptiness hypothesis instead). -/
def listMin {α : Type} [LinearOrder α] (d : α) : List α → α
  | [] => d
  | x :: xs => xs.foldl min x

/-- `np.max` over a list, with junk value `d` on the empty list. -/
def listMax {α : Type} [LinearOrder α] (d : α) : List α → α
  | [] => d
  | x :: xs => xs.foldl max x

/-- Conversion factor `units.cm` (module `proto_nd_flow/util/units.py`, not
under `src/`).  Modelled from the spec: internal coordinates are
millimeters, detector-description numbers are centimeters, so the factor
is 10 (consistent with the inline `*10` on line 610 of `geometry.py`). -/
def units_cm : ℚ := 10

/-- The cathode x-coordinates of `_load_charge_geometry`:
`np.unique(np.array(mod_centers)[:,0])*10`, from the module world-offset x
components. -/
def cathode_x_coords (mod_center_xs : List ℚ) : List ℚ :=
  (mod_center_xs.map (fun v => v * 10)).dedup

/-- The anode-to-cathode distance of `_load_charge_geometry`:
`np.min(|lar_detector_bounds[0][0] - cathode_x|)` over the cathode
x-coordinates. -/
def anode_to_cathode (lowest_x : ℚ) (mod_center_xs : List ℚ) : ℚ :=
  listMin 0 ((cathode_x_coords mod_center_xs).map (fun cx => |lowest_x - cx|))

/-- The cathode-thickness computation of `_load_charge_geometry` lines
610-618: if `max_drift_distance < anode_to_cathode` then
`|anode_to_cathode - max_drift_distance| * 2.0`, else `0.0`. -/
def cathode_thickness_calc (mod_center_xs : List ℚ) (lowest_x max_drift : ℚ) : ℚ :=
  let a2c := anode_to_cathode lowest_x mod_center_xs
  if max_drift < a2c then |a2c - max_drift| * 2 else 0

/-- The parsed configuration inputs feeding the io-group key computations
of `_load_charge_geometry`: `tile_chip_to_io` (tile → chip →
`io_group*1000 + io_channel`) from the layout yaml, and
`module_to_io_groups` (module id → io groups) from the detector yaml,
both as association lists in iteration order. -/
structure ChargeConfig where
  tile_chip_to_io : List (ℕ × List (ℕ × ℕ))
  module_to_io_groups : List (ℕ × List ℕ)
  deriving Repr, DecidableEq

/-- The `io_groups` list of `_load_charge_geometry` lines 483-488 used to
size the LUT key ranges:
`tile_chip_to_io[tile][chip] // 1000 * (mod-1)*2` for every tile, chip and
module. -/
def alloc_io_groups (cfg : ChargeConfig) : List ℕ :=
  cfg.tile_chip_to_io.flatMap fun t =>
    t.2.flatMap fun ch =>
      cfg.module_to_io_groups.map fun m => ch.2 / 1000 * (m.1 - 1) * 2

/-- The `io_channels` list of lines 489-494:
`tile_chip_to_io[tile][chip] % 1000` for every tile, chip and module. -/
def alloc_io_channels (cfg : ChargeConfig) : List ℕ :=
  cfg.tile_chip_to_io.flatMap fun t =>
    t.2.flatMap fun ch =>
      cfg.module_to_io_groups.map fun _ => ch.2 % 1000

/-- The `(min, max)` io_group key range the `pixel_coordinates_2D` LUT is
allocated with (first component of `pixel_coordinates_2D_min_max`,
line 506). -/
def pixel_io_group_range (cfg : ChargeConfig) : ℕ × ℕ :=
  (listMin 0 (alloc_io_groups cfg), listMax 0 (alloc_io_groups cfg))

/-- The `(min, len(module_to_io_groups)*max)` io_group key range the
`tile_id` LUT is allocated with (first component of `tile_min_max`,
line 510). -/
def tile_io_group_range (cfg : ChargeConfig) : ℕ × ℕ :=
  (listMin 0 (alloc_io_groups cfg),
   cfg.module_to_io_groups.length * listMax 0 (alloc_io_groups cfg))

/-- The `(io_group, io_channel)` keys under which `_tile_id` (line 536) and
`_pixel_coordinates_2D` (lines 547-561) are populated, together with the
1-based module index: for every module `m` and chip entry `v` of a tile,
`io_group = v // 1000 + (module_id-1)*len(module_to_io_groups[module_id])`
and `io_channel = v % 1000`. -/
def populated_io_keys (cfg : ChargeConfig) : List (ℕ × ℕ × ℕ) :=
  cfg.module_to_io_groups.flatMap fun m =>
    cfg.tile_chip_to_io.flatMap fun t =>
      t.2.map fun ch => (m.1, ch.2 / 1000 + (m.1 - 1) * m.2.length, ch.2 % 1000)

/-- The values stored into the `_tile_id` LUT (line 536):
`tile + (module_id-1)*len(tile_chip_to_io)` for every module and tile. -/
def populated_tile_values (cfg : ChargeConfig) : List ℕ :=
  cfg.module_to_io_groups.flatMap fun m =>
    cfg.tile_chip_to_io.map fun t => t.1 + (m.1 - 1) * cfg.tile_chip_to_io.length

/-! ## The lookup table -/

/-- Per-dimension dense sizes `max - min + 1` of a list of key ranges. -/
def dimSizes (ranges : List (ℤ × ℤ)) : List ℕ :=
  ranges.map fun r => (r.2 - r.1 + 1).toNat

/-- Total number of cells of the dense backing array. -/
def totalSize (ranges : List (ℤ × ℤ)) : ℕ :=
  (dimSizes ranges).prod

/-- Row-major flat index of a key: each key coordinate is translated by
subtracting its dimension's min, then mixed-radix encoded. -/
def flatIdx : List (ℤ × ℤ) → List ℤ → ℕ
  | [], _ => 0
  | _, [] => 0
  | r :: rs, k :: ks => (k - r.1).toNat * totalSize rs + flatIdx rs ks

/-- Whether a key tuple lies within the allocated ranges (same arity, each
coordinate within its dimension's `[min, max]`). -/
def inRangeB : List (ℤ × ℤ) → List ℤ → Bool
  | [], [] => true
  | r :: rs, k :: ks => decide (r.1 ≤ k) && decide (k ≤ r.2) && inRangeB rs ks
  | _, _ => false

/-- All key tuples of the allocated ranges, in row-major order (the
`keys()` enumeration). -/
def allKeys : List (ℤ × ℤ) → List (List ℤ)
  | [] => [[]]
  | r :: rs => ((List.range (r.2 - r.1 + 1).toNat).map fun i => r.1 + (i : ℤ)).flatMap
      fun k => (allKeys rs).map fun ks => k :: ks

/-- Modelled from the spec: the lookup table of
`proto_nd_flow/util/lut.py` (not under `src/`), §4.1 of the spec — an
N-dimensional associative array over integer-tuple keys backed by a dense
array sized to the min/max range of each key dimension, with a fixed
default value returned for keys never explicitly set.  The value shape and
dtype of the Python object are carried by the Lean value type `α`. -/
structure LUT (α : Type) where
  ranges : List (ℤ × ℤ)
  default : α
  data : List α
  deriving Repr, DecidableEq

/-- Modelled from the spec: `construct` allocates a dense array of
`totalSize ranges` cells filled with `default`. -/
def LUT.construct {α : Type} (ranges : List (ℤ × ℤ)) (d : α) : LUT α :=
  ⟨ranges, d, List.replicate (totalSize ranges) d⟩

/-- Modelled from the spec: `set` translates the key coordinates by
subtracting each dimension's min and assigns into the backing array. -/
def LUT.set {α : Type} (t : LUT α) (k : List ℤ) (v : α) : LUT α :=
  { t with data := t.data.set (flatIdx t.ranges k) v }

/-- Modelled from the spec: `get` returns the value at the key, or the
default for a key holding no explicitly set value. -/
def LUT.get {α : Type} (t : LUT α) (k : List ℤ) : α :=
  t.data.getD (flatIdx t.ranges k) t.default

/-- A sequence of `set` operations, applied in order. -/
def LUT.setAll {α : Type} (t : LUT α) (ops : List (List ℤ × α)) : LUT α :=
  ops.foldl (fun t op => t.set op.1 op.2) t

/-- Modelled from the spec: `keys()` enumerates the full set of coordinate
tuples the table is indexed over. -/
def LUT.keys {α : Type} (t : LUT α) : List (List ℤ) :=
  allKeys t.ranges

/-- Modelled from the spec: serialization to the tuple
`(ranges, default, dense array)` (value shape and dtype live in `α`). -/
def LUT.serialize {α : Type} (t : LUT α) : List (ℤ × ℤ) × α × List α :=
  (t.ranges, t.default, t.data)

/-- Modelled from the spec: reconstruction from the serialized tuple. -/
def LUT.deserialize {α : Type} (s : List (ℤ × ℤ) × α × List α) : LUT α :=
  ⟨s.1, s.2.1, s.2.2⟩

/-! ## Light-geometry builder fragments and the fallible loaders -/

/-- The parsed light-readout description of `_load_light_geometry`, after
resolving the per-(tpc, det) digitizer address: one entry
`(tpc_id, det_id, adc, channels)` per (tpc, detector) pair, in iteration
order; the channel slots padded with `-1` in `det_chan` are recovered by
filtering `≠ -1` (the `det_chan_mask`). -/
structure LightConfig where
  format_version : String
  entries : List (ℤ × ℤ × ℤ × List ℤ)
  deriving Repr, DecidableEq

/-- The masked `(adc, channel) → (tpc_id, det_id)` assignments of
`_load_light_geometry` lines 446-447: one per unmasked channel slot. -/
def light_pop (cfg : LightConfig) : List ((ℤ × ℤ) × (ℤ × ℤ)) :=
  cfg.entries.flatMap fun e =>
    (e.2.2.2.filter (fun ch => ch ≠ -1)).map fun ch => ((e.2.2.1, ch), (e.1, e.2.1))

/-- `adc_chan_min_max` (lines 433-434): the observed min/max of the masked
adc values and channel values, sizing both the `tpc_id` and `det_id`
LUTs. -/
def adc_chan_min_max (cfg : LightConfig) : List (ℤ × ℤ) :=
  [(listMin 0 ((light_pop cfg).map fun pr => pr.1.1),
    listMax 0 ((light_pop cfg).map fun pr => pr.1.1)),
   (listMin 0 ((light_pop cfg).map fun pr => pr.1.2),
    listMax 0 ((light_pop cfg).map fun pr => pr.1.2))]

/-- `_tpc_id` as built by lines 435-437 and 446: an `i4` LUT over
`adc_chan_min_max` with default `-1`, populated with the tpc ids. -/
def build_tpc_id (cfg : LightConfig) : LUT ℤ :=
  LUT.setAll (LUT.construct (adc_chan_min_max cfg) (-1))
    ((light_pop cfg).map fun pr => ([pr.1.1, pr.1.2], pr.2.1))

/-- `_det_id` as built by lines 438-439 and 447: an `i4` LUT over
`adc_chan_min_max` with default `-1`, populated with the detector ids. -/
def build_det_id (cfg : LightConfig) : LUT ℤ :=
  LUT.setAll (LUT.construct (adc_chan_min_max cfg) (-1))
    ((light_pop cfg).map fun pr => ([pr.1.1, pr.1.2], pr.2.2))

/-- The tile-id set operations of lines 527-536, as (key, value) pairs:
for every module `m`, tile `t` and chip entry `v`, key
`(v // 1000 + (module_id-1)*len(module_to_io_groups[module_id]), v % 1000)`
and value `tile + (module_id-1)*len(tile_chip_to_io)`. -/
def tile_ops (cfg : ChargeConfig) : List (List ℤ × ℤ) :=
  cfg.module_to_io_groups.flatMap fun m =>
    cfg.tile_chip_to_io.flatMap fun t =>
      t.2.map fun ch =>
        ([((ch.2 / 1000 + (m.1 - 1) * m.2.length : ℕ) : ℤ),
          ((ch.2 % 1000 : ℕ) : ℤ)],
         ((t.1 + (m.1 - 1) * cfg.tile_chip_to_io.length : ℕ) : ℤ))

/-- The key ranges the tile-id LUT is allocated with
(`tile_min_max`, line 510): per dimension `(min(v), len(module_to_io_groups)*max(v))`
over the allocation lists. -/
def tile_ranges (cfg : ChargeConfig) : List (ℤ × ℤ) :=
  [((listMin 0 (alloc_io_groups cfg) : ℕ),
    (cfg.module_to_io_groups.length * listMax 0 (alloc_io_groups cfg) : ℕ)),
   ((listMin 0 (alloc_io_channels cfg) : ℕ),
    (cfg.module_to_io_groups.length * listMax 0 (alloc_io_channels cfg) : ℕ))]

/-- `_tile_id` as built by lines 510-512 and 536: an `i4` LUT with default
`-1` over `tile_ranges`, populated with `tile_ops`. -/
def build_tile_id (cfg : ChargeConfig) : LUT ℤ :=
  LUT.setAll (LUT.construct (tile_ranges cfg) (-1)) (tile_ops cfg)

/-- The two fatal configuration errors of the geometry build. -/
inductive GeometryError : Type where
  | runtimeError (msg : String)
  | compatError (msg : String)
  deriving Repr, DecidableEq

/-- The charge-geometry layout description as parsed: whether the
top-level `multitile_layout_version` key is present, plus the
configuration content. -/
structure ChargeYaml where
  hasMultitileLayoutVersion : Bool
  cfg : ChargeConfig
  deriving Repr, DecidableEq

/-- `_load_charge_geometry` as a fallible build step: the layout version
key is checked first (lines 463-464, `raise RuntimeError(...)`) and no LUT
of this step exists unless the check passes. -/
def load_charge_geometry (y : ChargeYaml) : Except GeometryError (LUT ℤ) :=
  if y.hasMultitileLayoutVersion then .ok (build_tile_id y.cfg)
  else .error (.runtimeError "Only multi-tile geometry configurations are accepted")

/-- `_load_light_geometry` as a fallible build step:
`assert_compat_version(geometry[format_version], 0.0.0)` runs first
(line 405) and no LUT of this step exists unless the versions are
compatible.  The compatibility test itself
(`proto_nd_flow/util/compat.py`, not under `src/`) is modelled from the
spec as an abstract boolean predicate `compatible`. -/
def load_light_geometry (compatible : String → String → Bool) (y : LightConfig) :
    Except GeometryError (LUT ℤ × LUT ℤ) :=
  if compatible y.format_version "0.0.0" then .ok (build_tpc_id y, build_det_id y)
  else .error (.compatError "Incompatible format version")

/-- A single-module configuration: one module with io groups `{1, 2}`, one
tile whose chip 11 maps to `io_group*1000 + io_channel = 1101`. -/
def cfg1mod : ChargeConfig where
  tile_chip_to_io := [(1, [(11, 1101)])]
  module_to_io_groups := [(1, [1, 2])]

/-- A two-module configuration used as a concrete witness input. -/
def cfg2mod : ChargeConfig where
  tile_chip_to_io := [(1, [(11, 1101)])]
  module_to_io_groups := [(1, [1, 2]), (2, [3, 4])]

/-- A concrete light-readout configuration: TPC 1 with detectors 2 and 3 on
adcs 0 and 1, channels 5 and 7. -/
def lcfgEx : LightConfig where
  format_version := "0.0.0"
  entries := [(1, 2, 0, [5]), (1, 3, 1, [7])]

/-! ## Helper lemmas -/

theorem foldl_min_le_init {α : Type} [LinearOrder α] (xs : List α) (a : α) :
    xs.foldl min a ≤ a := by
  induction xs generalizing a with
  | nil => simp
  | cons x xs ih =>
    simpa using le_trans (ih (min a x)) (min_le_left a x)

theorem foldl_min_le_mem {α : Type} [LinearOrder α] (xs : List α) (a y : α)
    (hy : y ∈ xs) : xs.foldl min a ≤ y := by
  induction xs generalizing a with
  | nil => simp at hy
  | cons x xs ih =>
    simp only [List.foldl_cons]
    rcases List.mem_cons.mp hy with rfl | hmem
    · exact le_trans (foldl_min_le_init xs (min a y)) (min_le_right a y)
    · exact ih (min a x) hmem

theorem foldl_min_mem {α : Type} [LinearOrder α] (xs : List α) (a : α) :
    xs.foldl min a = a ∨ xs.foldl min a ∈ xs := by
  induction xs generalizing a with
  | nil => left; rfl
  | cons x xs ih =>
    simp only [List.foldl_cons]
    rcases ih (min a x) with h | h
    · rcases min_cases a x with ⟨hm, _⟩ | ⟨hm, _⟩
      · left; rw [h, hm]
      · right; rw [h, hm]; exact List.mem_cons_self x xs
    · right; exact List.mem_cons_of_mem x h

theorem listMin_spec {α : Type} [LinearOrder α] (d : α) (xs : List α) (h : xs ≠ []) :
    listMin d xs ∈ xs ∧ ∀ y ∈ xs, listMin d xs ≤ y := by
  cases xs with
  | nil => exact absurd rfl h
  | cons x xs =>
    refine ⟨?_, ?_⟩
    · rcases foldl_min_mem xs x with h1 | h1
      · show xs.foldl min x ∈ x :: xs
        rw [h1]; exact List.mem_cons_self x xs
      · exact List.mem_cons_of_mem x h1
    · intro y hy
      rcases List.mem_cons.mp hy with rfl | hmem
      · exact foldl_min_le_init xs y
      · exact foldl_min_le_mem xs x y hmem

theorem foldl_max_init_le {α : Type} [LinearOrder α] (xs : List α) (a : α) :
    a ≤ xs.foldl max a := by
  induction xs generalizing a with
  | nil => simp
  | cons x xs ih =>
    simpa using le_trans (le_max_left a x) (ih (max a x))

theorem foldl_max_mem_le {α : Type} [LinearOrder α] (xs : List α) (a y : α)
    (hy : y ∈ xs) : y ≤ xs.foldl max a := by
  induction xs generalizing a with
  | nil => simp at hy
  | cons x xs ih =>
    simp only [List.foldl_cons]
    rcases List.mem_cons.mp hy with rfl | hmem
    · exact le_trans (le_max_right a y) (foldl_max_init_le xs (max a y))
    · exact ih (max a x) hmem

theorem listMax_spec {α : Type} [LinearOrder α] (d : α) (xs : List α) :
    ∀ y ∈ xs, y ≤ listMax d xs := by
  cases xs with
  | nil => simp
  | cons x xs =>
    intro y hy
    rcases List.mem_cons.mp hy with rfl | hmem
    · exact foldl_max_init_le xs y
    · exact foldl_max_mem_le xs x y hmem

/-! ## Claim C1 -/

/-- **C1** (code_bug evidence): the claim says `in_fid` classifies a point
as fiducial when it lies inside the margin-shrunk box of *either* signed
drift sub-volume, the negative-drift sub-box being derived independently
from the module bounds.  On the single-module geometry `gEx`
(bounds `[[0,0,0],[100,50,50]]`, max drift distance 30) the point
`(10,25,25)` lies strictly inside the negative-drift sub-box
`x ∈ [0,30]` with all margins 0, so per the claim it must be fiducial;
the code returns `False` for it, because the aliased in-place update makes
both checked sub-volumes equal to `x ∈ [70,100]`. -/
theorem in_fid_misses_negative_drift_volume :
    in_fid_claim gEx 0 0 0 ⟨10, 25, 25⟩ = true ∧
    (in_fid gEx 0 0 0 ⟨10, 25, 25⟩).1 = false := by
  constructor
  · simp [in_fid_claim, inOpenBox, gEx]
    norm_num
  · simp [in_fid, in_fid_mutate, inOpenBox, gEx]
    norm_num

/-! ## Claim C2 -/

/-- **C2** (code_bug evidence): the claim says every query leaves the
geometry state unchanged, but `in_fid` overwrites `module_RO_bounds` in
place: on `gEx` the module's lower x bound is rewritten from 0 to
`100 - 30 = 70` by the aliased drift-region loop. -/
theorem in_fid_changes_geometry_state :
    gEx.module_RO_bounds = [Box.mk ⟨0, 0, 0⟩ ⟨100, 50, 50⟩] ∧
    (in_fid gEx 0 0 0 ⟨10, 25, 25⟩).2.module_RO_bounds
      = [Box.mk ⟨70, 0, 0⟩ ⟨100, 50, 50⟩] ∧
    (in_fid gEx 0 0 0 ⟨10, 25, 25⟩).2.module_RO_bounds ≠ gEx.module_RO_bounds := by
  refine ⟨rfl, ?_, ?_⟩
  · simp [in_fid, in_fid_mutate, gEx]
    norm_num
  · simp [in_fid, in_fid_mutate, gEx]
    norm_num

/-! ## Claim C4 -/

/-- **C4**: for an `(io_group, io_channel)` pair mapped to tile `t`,
`get_drift_coordinate` returns
`anode_drift_coordinate[t] + drift_dir[t] * d`; in particular it is affine
in `d` with slope `drift_dir[t]` and intercept `anode_drift_coordinate[t]`,
and at `d = 0` it returns exactly the anode drift coordinate. -/
theorem get_drift_coordinate_affine (g : Geometry) (iog ioch t : ℤ)
    (h : g.tile_id (iog, ioch) = t) (d : ℚ) :
    get_drift_coordinate g iog ioch d
      = g.anode_drift_coordinate t + (g.drift_dir t : ℚ) * d ∧
    get_drift_coordinate g iog ioch 0 = g.anode_drift_coordinate t ∧
    get_drift_coordinate g iog ioch d
      = get_drift_coordinate g iog ioch 0 + (g.drift_dir t : ℚ) * d := by
  subst h
  refine ⟨rfl, by simp [get_drift_coordinate], by simp [get_drift_coordinate]⟩

/-- Witness for C4 on the concrete geometry `gEx` at drift distance 2. -/
theorem get_drift_coordinate_affine_witness :
    gEx.tile_id (1, 1) = 1 ∧
    (get_drift_coordinate gEx 1 1 2
        = gEx.anode_drift_coordinate 1 + (gEx.drift_dir 1 : ℚ) * 2 ∧
      get_drift_coordinate gEx 1 1 0 = gEx.anode_drift_coordinate 1 ∧
      get_drift_coordinate gEx 1 1 2
        = get_drift_coordinate gEx 1 1 0 + (gEx.drift_dir 1 : ℚ) * 2) :=
  ⟨rfl, get_drift_coordinate_affine gEx 1 1 1 rfl 2⟩

/-! ## Claim C6 -/

/-- **C6**: after the charge-geometry build, `cathode_thickness` equals
`2 * (anode_to_cathode - max_drift_distance)` when the max drift distance
is strictly smaller than `anode_to_cathode`, and 0 otherwise, where
`anode_to_cathode` is the minimum of the distances from the detector's
lowest-x boundary to the cathode-plane x-coordinates derived from the
module world-offsets. -/
theorem cathode_thickness_formula (mxs : List ℚ) (lowest_x max_drift : ℚ)
    (h : mxs ≠ []) :
    (anode_to_cathode lowest_x mxs
        ∈ (cathode_x_coords mxs).map (fun cx => |lowest_x - cx|) ∧
      ∀ dd ∈ (cathode_x_coords mxs).map (fun cx => |lowest_x - cx|),
        anode_to_cathode lowest_x mxs ≤ dd) ∧
    cathode_thickness_calc mxs lowest_x max_drift
      = if max_drift < anode_to_cathode lowest_x mxs
        then 2 * (anode_to_cathode lowest_x mxs - max_drift) else 0 := by
  have hne : (cathode_x_coords mxs).map (fun cx => |lowest_x - cx|) ≠ [] := by
    simp only [ne_eq, List.map_eq_nil_iff, cathode_x_coords, List.dedup_eq_nil]
    simpa using h
  constructor
  · exact listMin_spec 0 _ hne
  · simp only [cathode_thickness_calc]
    split_ifs with hlt
    · rw [abs_of_pos (by linarith)]
      ring
    · rfl

/-- Witness for C6 with one module offset at x = 3 cm, lowest-x boundary at
0 and max drift distance 10 (so `anode_to_cathode = 30`). -/
theorem cathode_thickness_formula_witness :
    ([3] : List ℚ) ≠ [] ∧
    ((anode_to_cathode 0 [3]
        ∈ (cathode_x_coords [3]).map (fun cx => |0 - cx|) ∧
      ∀ dd ∈ (cathode_x_coords [3]).map (fun cx => |0 - cx|),
        anode_to_cathode 0 [3] ≤ dd) ∧
    cathode_thickness_calc [3] 0 10
      = if 10 < anode_to_cathode 0 [3]
        then 2 * (anode_to_cathode 0 [3] - 10) else 0) :=
  ⟨by simp, cathode_thickness_formula [3] 0 10 (by simp)⟩

/-! ## Claim C3 -/

/-- **C3** (counterexample): the point `(100, 25, 25)` lies exactly on the
unshrunk boundary of `gEx`'s single module, all three margins are 0, yet
`in_fid` classifies it as not fiducial (the containment comparisons are
strict), so "fiducial exactly when all margins are 0" fails. -/
theorem boundary_point_not_fiducial_at_zero_margins :
    onBoundary (Box.mk ⟨0, 0, 0⟩ ⟨100, 50, 50⟩) ⟨100, 25, 25⟩ = true ∧
    gEx.module_RO_bounds = [Box.mk ⟨0, 0, 0⟩ ⟨100, 50, 50⟩] ∧
    (in_fid gEx 0 0 0 ⟨100, 25, 25⟩).1 = false := by
  refine ⟨?_, rfl, ?_⟩
  · simp [onBoundary]
    norm_num
  · norm_num [in_fid, in_fid_mutate, inOpenBox, gEx]

/-- **C3** (amended): first, shrinking is monotone — a point fiducial under
pointwise-larger margins is fiducial under smaller ones.  Second, since
every containment comparison is strict, a point on a module's unshrunk
boundary is never classified fiducial, for any nonnegative margins (in a
single-module geometry whose max drift distance does not exceed the
module's drift-axis width), including all margins 0. -/
theorem in_fid_monotone_and_boundary_excluded :
    (∀ (g : Geometry) (c f a cBig fBig aBig : ℚ) (p : Vec3),
      c ≤ cBig → f ≤ fBig → a ≤ aBig →
      (in_fid g cBig fBig aBig p).1 = true → (in_fid g c f a p).1 = true) ∧
    (∀ (g : Geometry) (b : Box) (c f a : ℚ) (p : Vec3),
      g.module_RO_bounds = [b] → 0 ≤ c → 0 ≤ f → 0 ≤ a →
      g.max_drift_distance ≤ b.upper.x - b.lower.x →
      onBoundary b p = true → (in_fid g c f a p).1 = false) := by
  constructor
  · intro g c f a cBig fBig aBig p hc hf ha hbig
    simp only [in_fid, List.any_eq_true, Bool.or_eq_true, inOpenBox,
      decide_eq_true_eq, List.mem_map] at hbig ⊢
    obtain ⟨b, hb, hin⟩ := hbig
    refine ⟨b, hb, ?_⟩
    rcases hin with ⟨h1, h2, h3, h4, h5, h6⟩ | ⟨h1, h2, h3, h4, h5, h6⟩
    · exact Or.inl ⟨by linarith, by linarith, by linarith,
        by linarith, by linarith, by linarith⟩
    · exact Or.inr ⟨by linarith, by linarith, by linarith,
        by linarith, by linarith, by linarith⟩
  · intro g b c f a p hg hc hf ha hD hp
    simp only [onBoundary, decide_eq_true_eq] at hp
    obtain ⟨⟨hx1, hx2, hy1, hy2, hz1, hz2⟩, hface⟩ := hp
    simp only [in_fid, hg, List.map_cons, List.map_nil, List.any_cons,
      List.any_nil, Bool.or_false, inOpenBox, in_fid_mutate,
      Bool.or_eq_false_iff, decide_eq_false_iff_not]
    constructor
    · intro hin
      obtain ⟨h1, h2, h3, h4, h5, h6⟩ := hin
      rcases hface with hq | hq | hq | hq | hq | hq <;> simp_all <;> linarith
    · intro hin
      obtain ⟨h1, h2, h3, h4, h5, h6⟩ := hin
      rcases hface with hq | hq | hq | hq | hq | hq <;> simp_all <;> linarith

/-- Witness for C3: the monotone part applied on `gEx` at the interior
point `(80, 25, 25)` with margins shrinking from `(1,1,1)` to `(0,0,0)`,
and the boundary part applied at the boundary point `(100, 25, 25)` with
margins `(1,1,1)`. -/
theorem in_fid_monotone_and_boundary_excluded_witness :
    (in_fid gEx 0 0 0 ⟨80, 25, 25⟩).1 = true ∧
    (in_fid gEx 1 1 1 ⟨100, 25, 25⟩).1 = false := by
  constructor
  · apply in_fid_monotone_and_boundary_excluded.1 gEx 0 0 0 1 1 1 ⟨80, 25, 25⟩
      (by norm_num) (by norm_num) (by norm_num)
    simp [in_fid, in_fid_mutate, inOpenBox, gEx]
    norm_num
  · apply in_fid_monotone_and_boundary_excluded.2 gEx
      (Box.mk ⟨0, 0, 0⟩ ⟨100, 50, 50⟩) 1 1 1 ⟨100, 25, 25⟩ rfl
      (by norm_num) (by norm_num) (by norm_num)
    · show (30 : ℚ) ≤ 100 - 0
      norm_num
    · simp [onBoundary]
      norm_num

/-! ## Claim C5 -/

/-- The boolean-arithmetic sign computation of `_rect_solid_angle_sign`
agrees with the case description: `(1, 1)` inside the extent, and outside
it `-1` for the nearer edge, `+1` for the farther one. -/
theorem rect_solid_angle_sign_eq_claim (coord rect_min rect_max : ℚ) :
    rect_solid_angle_sign coord rect_min rect_max
      = rect_solid_angle_sign_claim coord rect_min rect_max := by
  unfold rect_solid_angle_sign rect_solid_angle_sign_claim boolToRat
  by_cases h1 : rect_min ≤ coord ∧ coord ≤ rect_max
  · simp [h1]
  · by_cases h2 : |rect_min - coord| < |rect_max - coord| <;>
      simp [h1, h2, Prod.ext_iff] <;> norm_num

/-- **C5**: for a point and a `(tpc_id, det_id)` pair with stored bounds
`b`, `solid_angle` equals the sum over the four corner combinations of
`sign_y * sign_z * arctan2(|det_y - y|·|det_z - z|, |det_x - x|·dist)`,
with `det_x` the x-midpoint of the bounds, `dist` the Euclidean distance
from the point to the corner, and the per-axis signs both `+1` inside the
extent and `-1` on the nearer edge / `+1` on the farther edge outside it. -/
theorem solid_angle_matches_corner_decomposition (g : Geometry) (p : Vec3)
    (tpc det : ℤ) (b : Box) (h : g.det_bounds (tpc, det) = b) :
    solid_angle g p tpc det = solid_angle_rect_claim b p := by
  subst h
  unfold solid_angle solid_angle_rect solid_angle_rect_claim
  simp only [rect_solid_angle_sign_eq_claim]

/-- Witness for C5 on the concrete geometry `gEx`, whose `det_bounds` LUT
stores the box `[[0,0,0],[1,2,3]]` for `(tpc, det) = (1, 1)`. -/
theorem solid_angle_matches_corner_decomposition_witness :
    gEx.det_bounds (1, 1) = Box.mk ⟨0, 0, 0⟩ ⟨1, 2, 3⟩ ∧
    solid_angle gEx ⟨5, 5, 5⟩ 1 1
      = solid_angle_rect_claim (Box.mk ⟨0, 0, 0⟩ ⟨1, 2, 3⟩) ⟨5, 5, 5⟩ :=
  ⟨rfl, solid_angle_matches_corner_decomposition gEx ⟨5, 5, 5⟩ 1 1 _ rfl⟩

/-! ## Claim C7 -/

/-- **C7** (code_bug evidence): for the single-module configuration
`cfg1mod`, the population loop writes the tile-id and pixel LUTs under the
offset key `io_group = 1101 // 1000 + (1-1)*2 = 1`, but the allocation
lists (which use `io // 1000 * (mod-1)*2` instead of
`io // 1000 + (mod-1)*2`) make both LUTs' io_group key range `(0, 0)`, so
the populated key lies outside the allocated range. -/
theorem populated_io_group_key_outside_allocated_range :
    populated_io_keys cfg1mod = [(1, 1, 101)] ∧
    pixel_io_group_range cfg1mod = (0, 0) ∧
    tile_io_group_range cfg1mod = (0, 0) ∧
    (∀ k ∈ populated_io_keys cfg1mod,
      ¬((pixel_io_group_range cfg1mod).1 ≤ k.2.1 ∧
        k.2.1 ≤ (pixel_io_group_range cfg1mod).2) ∧
      ¬((tile_io_group_range cfg1mod).1 ≤ k.2.1 ∧
        k.2.1 ≤ (tile_io_group_range cfg1mod).2)) := by
  refine ⟨rfl, rfl, rfl, ?_⟩
  decide

/-! ## Claim C8 -/

/-- **C8**: each geometry build step fails fatally, returning an error and
no lookup table, exactly when its configuration error is present: the
charge build errors precisely when the parsed layout description lacks the
`multitile_layout_version` key, and the light build errors precisely when
the parsed description's `format_version` is incompatible with the
expected version `0.0.0`. -/
theorem geometry_build_fails_iff_config_error (y : ChargeYaml)
    (compatible : String → String → Bool) (lc : LightConfig) :
    ((∃ lut, load_charge_geometry y = .ok lut)
        ↔ y.hasMultitileLayoutVersion = true) ∧
    (load_charge_geometry y
        = .error (.runtimeError "Only multi-tile geometry configurations are accepted")
      ↔ y.hasMultitileLayoutVersion = false) ∧
    ((∃ luts, load_light_geometry compatible lc = .ok luts)
        ↔ compatible lc.format_version "0.0.0" = true) ∧
    (load_light_geometry compatible lc
        = .error (.compatError "Incompatible format version")
      ↔ compatible lc.format_version "0.0.0" = false) := by
  unfold load_charge_geometry load_light_geometry
  by_cases h1 : y.hasMultitileLayoutVersion <;>
    by_cases h2 : compatible lc.format_version "0.0.0" <;>
      simp [h1, h2]

/-! ## LUT lemmas -/

theorem totalSize_cons (r : ℤ × ℤ) (rs : List (ℤ × ℤ)) :
    totalSize (r :: rs) = (r.2 - r.1 + 1).toNat * totalSize rs := by
  simp [totalSize, dimSizes]

theorem flatIdx_lt_totalSize (rs : List (ℤ × ℤ)) (ks : List ℤ)
    (h : inRangeB rs ks = true) : flatIdx rs ks < totalSize rs := by
  induction rs generalizing ks with
  | nil =>
    cases ks with
    | nil => simp [flatIdx, totalSize, dimSizes]
    | cons k ks => simp [inRangeB] at h
  | cons r rs ih =>
    cases ks with
    | nil => simp [inRangeB] at h
    | cons k ks =>
      simp only [inRangeB, Bool.and_eq_true, decide_eq_true_eq] at h
      obtain ⟨⟨h1, h2⟩, h3⟩ := h
      have hk : (k - r.1).toNat + 1 ≤ (r.2 - r.1 + 1).toNat := by omega
      have htail := ih ks h3
      calc flatIdx (r :: rs) (k :: ks)
          = (k - r.1).toNat * totalSize rs + flatIdx rs ks := rfl
        _ < (k - r.1).toNat * totalSize rs + totalSize rs := by omega
        _ = ((k - r.1).toNat + 1) * totalSize rs := by ring
        _ ≤ (r.2 - r.1 + 1).toNat * totalSize rs := Nat.mul_le_mul_right _ hk
        _ = totalSize (r :: rs) := (totalSize_cons r rs).symm

theorem mixed_radix_digits_unique (a c b d s : ℕ) (hb : b < s) (hd : d < s)
    (h : a * s + b = c * s + d) : a = c ∧ b = d := by
  have hac : a = c := by
    rcases Nat.lt_trichotomy a c with hlt | heq | hgt
    · exfalso
      have : a * s + b < c * s + d := by
        calc a * s + b < a * s + s := by omega
          _ = (a + 1) * s := by ring
          _ ≤ c * s := Nat.mul_le_mul_right _ hlt
          _ ≤ c * s + d := Nat.le_add_right _ _
      omega
    · exact heq
    · exfalso
      have : c * s + d < a * s + b := by
        calc c * s + d < c * s + s := by omega
          _ = (c + 1) * s := by ring
          _ ≤ a * s := Nat.mul_le_mul_right _ hgt
          _ ≤ a * s + b := Nat.le_add_right _ _
      omega
  subst hac
  exact ⟨rfl, by omega⟩

theorem flatIdx_injective (rs : List (ℤ × ℤ)) (ks ls : List ℤ)
    (hk : inRangeB rs ks = true) (hl : inRangeB rs ls = true)
    (h : flatIdx rs ks = flatIdx rs ls) : ks = ls := by
  induction rs generalizing ks ls with
  | nil =>
    cases ks with
    | nil =>
      cases ls with
      | nil => rfl
      | cons l ls => simp [inRangeB] at hl
    | cons k ks => simp [inRangeB] at hk
  | cons r rs ih =>
    cases ks with
    | nil => simp [inRangeB] at hk
    | cons k ks =>
      cases ls with
      | nil => simp [inRangeB] at hl
      | cons l ls =>
        simp only [inRangeB, Bool.and_eq_true, decide_eq_true_eq] at hk hl
        obtain ⟨⟨hk1, hk2⟩, hk3⟩ := hk
        obtain ⟨⟨hl1, hl2⟩, hl3⟩ := hl
        have hbk := flatIdx_lt_totalSize rs ks hk3
        have hbl := flatIdx_lt_totalSize rs ls hl3
        have heq : (k - r.1).toNat * totalSize rs + flatIdx rs ks
            = (l - r.1).toNat * totalSize rs + flatIdx rs ls := h
        obtain ⟨hhead, htail⟩ :=
          mixed_radix_digits_unique _ _ _ _ _ hbk hbl heq
        have : k = l := by omega
        subst this
        rw [ih ks ls hk3 hl3 htail]

theorem LUT.ranges_set {α : Type} (t : LUT α) (k : List ℤ) (v : α) :
    (t.set k v).ranges = t.ranges := rfl

theorem LUT.default_set {α : Type} (t : LUT α) (k : List ℤ) (v : α) :
    (t.set k v).default = t.default := rfl

theorem LUT.get_set_ne {α : Type} (t : LUT α) (k l : List ℤ) (v : α)
    (h : flatIdx t.ranges k ≠ flatIdx t.ranges l) :
    (t.set k v).get l = t.get l := by
  unfold LUT.set LUT.get
  simp only [List.getD_eq_getElem?_getD, List.getElem?_set_ne h]

theorem LUT.get_construct {α : Type} (ranges : List (ℤ × ℤ)) (d : α)
    (k : List ℤ) : (LUT.construct ranges d).get k = d := by
  unfold LUT.construct LUT.get
  simp only [List.getD_eq_getElem?_getD, List.getElem?_replicate]
  split <;> simp

theorem LUT.get_setAll_not_mem {α : Type} (t : LUT α)
    (ops : List (List ℤ × α)) (k : List ℤ)
    (hops : ∀ op ∈ ops, inRangeB t.ranges op.1 = true)
    (hk : inRangeB t.ranges k = true)
    (hnot : k ∉ ops.map Prod.fst) :
    (t.setAll ops).get k = t.get k := by
  induction ops generalizing t with
  | nil => rfl
  | cons op ops ih =>
    simp only [List.map_cons, List.mem_cons, not_or] at hnot
    have step : (t.setAll (op :: ops)) = ((t.set op.1 op.2).setAll ops) := rfl
    rw [step]
    rw [ih (t.set op.1 op.2)
      (by intro o ho; rw [LUT.ranges_set]; exact hops o (List.mem_cons_of_mem op ho))
      (by rw [LUT.ranges_set]; exact hk) hnot.2]
    apply LUT.get_set_ne
    intro hcontra
    exact hnot.1 (flatIdx_injective t.ranges op.1 k
      (hops op (List.mem_cons_self op ops)) hk hcontra).symm

/-! ## Claim C9 -/

/-- **C9**: serializing a constructed lookup table to the tuple
`(ranges, default, dense array)` and deserializing it yields a table whose
`get` agrees with the original on every key of `keys()`, and `get` on any
in-range key never explicitly set returns the configured default. -/
theorem lut_serialize_roundtrip_and_default {α : Type} (ranges : List (ℤ × ℤ))
    (d : α) (ops : List (List ℤ × α)) (k : List ℤ)
    (hops : ∀ op ∈ ops, inRangeB ranges op.1 = true)
    (hk : inRangeB ranges k = true)
    (hnot : k ∉ ops.map Prod.fst) :
    (∀ l ∈ ((LUT.construct ranges d).setAll ops).keys,
        (LUT.deserialize (LUT.serialize ((LUT.construct ranges d).setAll ops))).get l
          = ((LUT.construct ranges d).setAll ops).get l) ∧
    (LUT.deserialize (LUT.serialize ((LUT.construct ranges d).setAll ops))).get k
      = d ∧
    ((LUT.construct ranges d).setAll ops).get k = d := by
  have hround :
      LUT.deserialize (LUT.serialize ((LUT.construct ranges d).setAll ops))
        = (LUT.construct ranges d).setAll ops := rfl
  have hdef : ((LUT.construct ranges d).setAll ops).get k = d := by
    rw [LUT.get_setAll_not_mem (LUT.construct ranges d) ops k hops hk hnot]
    exact LUT.get_construct ranges d k
  exact ⟨fun l _ => by rw [hround], by rw [hround]; exact hdef, hdef⟩

/-- Witness for C9: a 2-dimensional table over ranges `[(0,1),(5,6)]` with
default 0, the single set operation `[0,5] ↦ 7`, and the in-range unset
key `[1,6]`. -/
theorem lut_serialize_roundtrip_and_default_witness :
    ((∀ op ∈ [([0, 5], (7 : ℤ))], inRangeB [(0, 1), (5, 6)] op.1 = true) ∧
      inRangeB [(0, 1), (5, 6)] [1, 6] = true ∧
      [1, 6] ∉ [([0, 5], (7 : ℤ))].map Prod.fst) ∧
    ((∀ l ∈ ((LUT.construct [(0, 1), (5, 6)] (0 : ℤ)).setAll [([0, 5], 7)]).keys,
        (LUT.deserialize (LUT.serialize
            ((LUT.construct [(0, 1), (5, 6)] (0 : ℤ)).setAll [([0, 5], 7)]))).get l
          = ((LUT.construct [(0, 1), (5, 6)] (0 : ℤ)).setAll [([0, 5], 7)]).get l) ∧
      (LUT.deserialize (LUT.serialize
          ((LUT.construct [(0, 1), (5, 6)] (0 : ℤ)).setAll [([0, 5], 7)]))).get [1, 6]
        = 0 ∧
      ((LUT.construct [(0, 1), (5, 6)] (0 : ℤ)).setAll [([0, 5], 7)]).get [1, 6]
        = 0) :=
  ⟨⟨by decide, by decide, by decide⟩,
   lut_serialize_roundtrip_and_default [(0, 1), (5, 6)] 0 [([0, 5], 7)] [1, 6]
     (by decide) (by decide) (by decide)⟩

/-! ## Claim C10 -/

/-- Every masked `(adc, channel)` key populated by the light builder lies
within `adc_chan_min_max`, since those ranges are the observed min/max of
the populated keys themselves. -/
theorem light_pop_keys_in_range (cfg : LightConfig) (pr : (ℤ × ℤ) × (ℤ × ℤ))
    (h : pr ∈ light_pop cfg) :
    inRangeB (adc_chan_min_max cfg) [pr.1.1, pr.1.2] = true := by
  have hadc : pr.1.1 ∈ (light_pop cfg).map fun q => q.1.1 :=
    List.mem_map_of_mem _ h
  have hchan : pr.1.2 ∈ (light_pop cfg).map fun q => q.1.2 :=
    List.mem_map_of_mem _ h
  have hne1 : (light_pop cfg).map (fun q => q.1.1) ≠ [] := by
    intro hcon
    rw [List.map_eq_nil_iff] at hcon
    rw [hcon] at h
    simp at h
  have hne2 : (light_pop cfg).map (fun q => q.1.2) ≠ [] := by
    intro hcon
    rw [List.map_eq_nil_iff] at hcon
    rw [hcon] at h
    simp at h
  simp only [adc_chan_min_max, inRangeB, Bool.and_eq_true, decide_eq_true_eq]
  exact ⟨⟨(listMin_spec 0 _ hne1).2 _ hadc, listMax_spec 0 _ _ hadc⟩,
         ⟨(listMin_spec 0 _ hne2).2 _ hchan, listMax_spec 0 _ _ hchan⟩, trivial⟩

/-- **C10**: the id-valued LUTs are constructed with default `-1`: an
in-range `(io_group, io_channel)` key never populated yields `-1` from the
tile-id LUT, an in-range `(adc, channel)` key never populated yields `-1`
from both the tpc-id and det-id LUTs, and (for 1-based tile keys) every
populated tile id is `≥ 1`, so the sentinel is distinct from every real
id. -/
theorem id_luts_unmapped_key_returns_sentinel (ccfg : ChargeConfig)
    (lcfg : LightConfig) (k kl : List ℤ)
    (hops : ∀ op ∈ tile_ops ccfg, inRangeB (tile_ranges ccfg) op.1 = true)
    (hk : inRangeB (tile_ranges ccfg) k = true)
    (hknot : k ∉ (tile_ops ccfg).map Prod.fst)
    (hkl : inRangeB (adc_chan_min_max lcfg) kl = true)
    (hklnot : kl ∉ (light_pop lcfg).map fun pr => [pr.1.1, pr.1.2])
    (htiles : ∀ t ∈ ccfg.tile_chip_to_io, 1 ≤ t.1) :
    (build_tile_id ccfg).get k = -1 ∧
    (build_tpc_id lcfg).get kl = -1 ∧
    (build_det_id lcfg).get kl = -1 ∧
    (∀ v ∈ (tile_ops ccfg).map Prod.snd, 1 ≤ v ∧ v ≠ -1) := by
  have hmap1 : ((light_pop lcfg).map fun pr => ([pr.1.1, pr.1.2], pr.2.1)).map
      Prod.fst = (light_pop lcfg).map fun pr => [pr.1.1, pr.1.2] := by
    rw [List.map_map]
    rfl
  have hmap2 : ((light_pop lcfg).map fun pr => ([pr.1.1, pr.1.2], pr.2.2)).map
      Prod.fst = (light_pop lcfg).map fun pr => [pr.1.1, pr.1.2] := by
    rw [List.map_map]
    rfl
  refine ⟨?_, ?_, ?_, ?_⟩
  · unfold build_tile_id
    rw [LUT.get_setAll_not_mem _ _ _ hops hk hknot]
    exact LUT.get_construct _ _ _
  · unfold build_tpc_id
    rw [LUT.get_setAll_not_mem _ _ _ ?_ hkl (by rw [hmap1]; exact hklnot)]
    · exact LUT.get_construct _ _ _
    · intro op hop
      rw [List.mem_map] at hop
      obtain ⟨pr, hpr, rfl⟩ := hop
      exact light_pop_keys_in_range lcfg pr hpr
  · unfold build_det_id
    rw [LUT.get_setAll_not_mem _ _ _ ?_ hkl (by rw [hmap2]; exact hklnot)]
    · exact LUT.get_construct _ _ _
    · intro op hop
      rw [List.mem_map] at hop
      obtain ⟨pr, hpr, rfl⟩ := hop
      exact light_pop_keys_in_range lcfg pr hpr
  · intro v hv
    simp only [tile_ops, List.map_eq_map, List.mem_map, List.mem_flatMap] at hv
    obtain ⟨op, ⟨m, hm, t, ht, hop⟩, rfl⟩ := hv
    obtain ⟨ch, hch, rfl⟩ := hop
    have h1 := htiles t ht
    have h2 : (1 : ℤ) ≤ ((t.1 + (m.1 - 1) * ccfg.tile_chip_to_io.length : ℕ) : ℤ) := by
      exact_mod_cast Nat.le_add_right_of_le h1
    exact ⟨h2, by omega⟩

/-- Witness for C10 on the two-module charge configuration `cfg2mod`
(in-range unset key `(2, 101)`) and the light configuration `lcfgEx`
(in-range unset key `(0, 6)`). -/
theorem id_luts_unmapped_key_returns_sentinel_witness :
    ((∀ op ∈ tile_ops cfg2mod, inRangeB (tile_ranges cfg2mod) op.1 = true) ∧
      inRangeB (tile_ranges cfg2mod) [2, 101] = true ∧
      [2, 101] ∉ (tile_ops cfg2mod).map Prod.fst ∧
      inRangeB (adc_chan_min_max lcfgEx) [0, 6] = true ∧
      [0, 6] ∉ (light_pop lcfgEx).map (fun pr => [pr.1.1, pr.1.2]) ∧
      (∀ t ∈ cfg2mod.tile_chip_to_io, 1 ≤ t.1)) ∧
    ((build_tile_id cfg2mod).get [2, 101] = -1 ∧
      (build_tpc_id lcfgEx).get [0, 6] = -1 ∧
      (build_det_id lcfgEx).get [0, 6] = -1 ∧
      (∀ v ∈ (tile_ops cfg2mod).map Prod.snd, 1 ≤ v ∧ v ≠ -1)) :=
  ⟨⟨by decide, by decide, by decide, by decide, by decide, by decide⟩,
   id_luts_unmapped_key_returns_sentinel cfg2mod lcfgEx [2, 101] [0, 6]
     (by decide) (by decide) (by decide) (by decide) (by decide) (by decide)⟩

end NdlarFlow
